import Mathlib

/-!
Verification of the synchronization / rollup-state-machine subsystem of
`cartesi-rollups-hl-graphql` against its natural-language specification.

The Go sources are shallowly embedded: every SQL table becomes a Lean list of
row records, every repository operation becomes a pure function on those lists
(INSERT = append, UPDATE ... WHERE key = map over matching rows,
SELECT ... WHERE key LIMIT 1 = `List.find?`, ORDER BY/LIMIT/OFFSET =
sort / take / drop), and every fallible operation returns `Except String`.
Machine integers are modelled as `Nat` with explicit `% 2 ^ 64` where Go's
`big.Int.Uint64` truncates.  Parts of the repository that are referenced by
the sources in scope but whose own source file is absent (the voucher
repository SQL, `commons.ComputePage`, the rollup-state implementations, the
`model` package constants) are modelled from the spec and are marked as such
in their doc comments.
-/

namespace CartesiHlGraphql

/-- 20-byte Ethereum address, as its list of bytes (Go `common.Address`). -/
abbrev Address := List Nat

/-- The zero address `common.Address{}`. -/
def zeroAddress : Address := List.replicate 20 0

/-- `model.ConvenienceVoucher` (internal/convenience/model): an intended
external call emitted by a computation, keyed by `(InputIndex, OutputIndex)`.
The `payload` is kept as the hex string the repository stores. -/
structure ConvenienceVoucher where
  destination : Address
  payload : String
  inputIndex : Nat
  outputIndex : Nat
  executed : Bool
  appContract : Address
  deriving Repr, DecidableEq

/-- `model.ConvenienceNotice`: an informational output, keyed by
`(InputIndex, OutputIndex)`. -/
structure ConvenienceNotice where
  payload : String
  inputIndex : Nat
  outputIndex : Nat
  appContract : Address
  deriving Repr, DecidableEq

/-- `model.Report` (internal/convenience/model): diagnostic output, keyed by
`(InputIndex, Index)`; payload is raw bytes. -/
structure Report where
  index : Nat
  inputIndex : Nat
  payload : List Nat
  appContract : Address
  deriving Repr, DecidableEq

/-- `model.CompletionStatus` enum. -/
inductive CompletionStatus where
  | unprocessed
  | accepted
  | rejected
  | exception
  | machineHalted
  | cycleLimitExceeded
  | timeLimitExceeded
  | payloadLengthLimitExceeded
  deriving Repr, DecidableEq

/-- `model.AdvanceInput` (the fields used by the code under verification). -/
structure AdvanceInput where
  id : String := ""
  index : Nat
  status : CompletionStatus
  msgSender : Address
  payload : List Nat
  blockNumber : Nat
  blockTimestamp : Nat
  prevRandao : String
  exception : List Nat
  appContract : Address
  chainId : Nat := 0
  inputBoxIndex : Nat := 0
  deriving Repr, DecidableEq

/-! ## Voucher repository

`voucher_repository.go` itself is not among the sources in scope (only its
callers and tests are), so its row operations are modelled from the spec. -/

/-- Modelled from the spec: `VoucherRepository.FindVoucherByInputAndOutputIndex`
(`SELECT ... WHERE input_index = $1 and output_index = $2 LIMIT 1`);
the repository row lookup by the natural key `(InputIndex, OutputIndex)`. -/
def findVoucherByInputAndOutputIndex (tbl : List ConvenienceVoucher)
    (inputIndex outputIndex : Nat) : Option ConvenienceVoucher :=
  tbl.find? (fun v => v.inputIndex = inputIndex ∧ v.outputIndex = outputIndex)

/-- Modelled from the spec: `VoucherRepository.CreateVoucher` (SQL INSERT of
the candidate row). -/
def voucherRepoCreate (tbl : List ConvenienceVoucher)
    (v : ConvenienceVoucher) : List ConvenienceVoucher :=
  tbl ++ [v]

/-- Modelled from the spec: `VoucherRepository.UpdateVoucher` (SQL UPDATE of
the non-key columns at the natural key; the record with the same key is
"updated in place"). -/
def voucherRepoUpdate (tbl : List ConvenienceVoucher)
    (v : ConvenienceVoucher) : List ConvenienceVoucher :=
  tbl.map (fun r =>
    if r.inputIndex = v.inputIndex ∧ r.outputIndex = v.outputIndex then
      { r with destination := v.destination, payload := v.payload,
               executed := v.executed, appContract := v.appContract }
    else r)

/-- Modelled from the spec: `VoucherRepository.UpdateExecuted` — set the
`executed` flag of the row at `(inputIndex, outputIndex)`. -/
def voucherRepoUpdateExecuted (tbl : List ConvenienceVoucher)
    (inputIndex outputIndex : Nat) (executedValue : Bool) :
    List ConvenienceVoucher :=
  tbl.map (fun r =>
    if r.inputIndex = inputIndex ∧ r.outputIndex = outputIndex then
      { r with executed := executedValue }
    else r)

/-- `ConvenienceService.CreateVoucher` (service.go): find by natural key,
update the candidate in place when a row exists, insert it otherwise. -/
def createVoucher (tbl : List ConvenienceVoucher) (voucher : ConvenienceVoucher) :
    List ConvenienceVoucher × Except String ConvenienceVoucher :=
  match findVoucherByInputAndOutputIndex tbl voucher.inputIndex voucher.outputIndex with
  | some _ => (voucherRepoUpdate tbl voucher, Except.ok voucher)
  | none => (voucherRepoCreate tbl voucher, Except.ok voucher)

/-! ## Notice repository (input_repository_test.go, second document:
notice_repository.go) -/

/-- `NoticeRepository.FindByInputAndOutputIndex`:
`SELECT * FROM convenience_notices WHERE input_index = $1 and output_index = $2 LIMIT 1`. -/
def noticeFindByInputAndOutputIndex (tbl : List ConvenienceNotice)
    (inputIndex outputIndex : Nat) : Option ConvenienceNotice :=
  tbl.find? (fun n => n.inputIndex = inputIndex ∧ n.outputIndex = outputIndex)

/-- `NoticeRepository.Create`: INSERT of payload, input_index, output_index,
app_contract. -/
def noticeRepoCreate (tbl : List ConvenienceNotice) (data : ConvenienceNotice) :
    List ConvenienceNotice :=
  tbl ++ [data]

/-- `NoticeRepository.Update`: `UPDATE convenience_notices SET payload = $1
WHERE input_index = $2 and output_index = $3` — only the payload column is
written. -/
def noticeRepoUpdate (tbl : List ConvenienceNotice) (data : ConvenienceNotice) :
    List ConvenienceNotice :=
  tbl.map (fun r =>
    if r.inputIndex = data.inputIndex ∧ r.outputIndex = data.outputIndex then
      { r with payload := data.payload }
    else r)

/-- `ConvenienceService.CreateNotice` (service.go). -/
def createNotice (tbl : List ConvenienceNotice) (notice : ConvenienceNotice) :
    List ConvenienceNotice × Except String ConvenienceNotice :=
  match noticeFindByInputAndOutputIndex tbl notice.inputIndex notice.outputIndex with
  | some _ => (noticeRepoUpdate tbl notice, Except.ok notice)
  | none => (noticeRepoCreate tbl notice, Except.ok notice)

/-! ## Report repository (report_repository.go) -/

/-- `ReportRepository.FindByInputAndOutputIndex`: the SQL selects **only the
payload column** (`SELECT payload FROM convenience_reports WHERE ... LIMIT 1`)
and rebuilds the record from the arguments, leaving `appContract` at its zero
value. -/
def reportFindByInputAndOutputIndex (tbl : List Report)
    (inputIndex outputIndex : Nat) : Option Report :=
  (tbl.find? (fun r => r.inputIndex = inputIndex ∧ r.index = outputIndex)).map
    (fun r => { inputIndex := inputIndex, index := outputIndex,
                payload := r.payload, appContract := zeroAddress })

/-- `ReportRepository.Create`: INSERT of output_index, payload, input_index,
app_contract. -/
def reportRepoCreate (tbl : List Report) (report : Report) : List Report :=
  tbl ++ [report]

/-- `ReportRepository.Update`: `UPDATE convenience_reports SET payload = $1
WHERE input_index = $2 and output_index = $3` — only the payload column is
written. -/
def reportRepoUpdate (tbl : List Report) (report : Report) : List Report :=
  tbl.map (fun r =>
    if r.inputIndex = report.inputIndex ∧ r.index = report.index then
      { r with payload := report.payload }
    else r)

/-- `ConvenienceService.CreateReport` (service.go): when a row already exists
at the key, the service calls `reportRepository.Update(ctx, *reportInDb)` —
note: the **found** record, not the candidate. -/
def createReport (tbl : List Report) (report : Report) :
    List Report × Except String Report :=
  match reportFindByInputAndOutputIndex tbl report.inputIndex report.index with
  | some reportInDb => (reportRepoUpdate tbl reportInDb, Except.ok reportInDb)
  | none => (reportRepoCreate tbl report, Except.ok report)

/-- Number of rows of a voucher table at a natural key. -/
def voucherRowsAt (tbl : List ConvenienceVoucher) (inputIndex outputIndex : Nat) :
    List ConvenienceVoucher :=
  tbl.filter (fun v => v.inputIndex = inputIndex ∧ v.outputIndex = outputIndex)

/-- Rows of a report table at a natural key. -/
def reportRowsAt (tbl : List Report) (inputIndex outputIndex : Nat) : List Report :=
  tbl.filter (fun r => r.inputIndex = inputIndex ∧ r.index = outputIndex)

/-- The field overwrite `UpdateVoucher` performs on a matching row. -/
def voucherOverwrite (v r : ConvenienceVoucher) : ConvenienceVoucher :=
  { r with destination := v.destination, payload := v.payload,
           executed := v.executed, appContract := v.appContract }

lemma voucherRowsAt_update (tbl : List ConvenienceVoucher) (v : ConvenienceVoucher) :
    voucherRowsAt (voucherRepoUpdate tbl v) v.inputIndex v.outputIndex =
      (voucherRowsAt tbl v.inputIndex v.outputIndex).map (voucherOverwrite v) := by
  induction tbl with
  | nil => rfl
  | cons r t ih =>
    by_cases h : r.inputIndex = v.inputIndex ∧ r.outputIndex = v.outputIndex
    · simp [voucherRepoUpdate, voucherRowsAt, voucherOverwrite, h] at ih ⊢
      exact ih
    · simp [voucherRepoUpdate, voucherRowsAt, voucherOverwrite, h] at ih ⊢
      exact ih

lemma voucherRowsAt_update_self (tbl : List ConvenienceVoucher)
    (v : ConvenienceVoucher) (hne : voucherRowsAt tbl v.inputIndex v.outputIndex ≠ []) :
    ∀ r ∈ voucherRowsAt (voucherRepoUpdate tbl v) v.inputIndex v.outputIndex, r = v := by
  intro r hr
  rw [voucherRowsAt_update] at hr
  obtain ⟨r₀, hr₀, rfl⟩ := List.mem_map.mp hr
  have hkey : r₀.inputIndex = v.inputIndex ∧ r₀.outputIndex = v.outputIndex := by
    have := List.mem_filter.mp hr₀
    simpa using this.2
  cases v
  simp [voucherOverwrite, hkey.1, hkey.2]

lemma voucherRowsAt_append_match (tbl : List ConvenienceVoucher)
    (v : ConvenienceVoucher) :
    voucherRowsAt (tbl ++ [v]) v.inputIndex v.outputIndex =
      voucherRowsAt tbl v.inputIndex v.outputIndex ++ [v] := by
  simp [voucherRowsAt, List.filter_append]

lemma find?_voucher_eq_none_iff (tbl : List ConvenienceVoucher) (i o : Nat) :
    findVoucherByInputAndOutputIndex tbl i o = none ↔ voucherRowsAt tbl i o = [] := by
  constructor
  · intro h
    have := List.find?_eq_none.mp h
    exact List.filter_eq_nil_iff.mpr (fun a ha => this a ha)
  · intro h
    exact List.find?_eq_none.mpr (fun a ha => List.filter_eq_nil_iff.mp h a ha)

lemma find?_voucher_isSome_of_rows (tbl : List ConvenienceVoucher) (i o : Nat)
    (h : voucherRowsAt tbl i o ≠ []) :
    ∃ w, findVoucherByInputAndOutputIndex tbl i o = some w := by
  rcases hv : findVoucherByInputAndOutputIndex tbl i o with _ | w
  · exact absurd ((find?_voucher_eq_none_iff tbl i o).mp hv) h
  · exact ⟨w, rfl⟩

/-- One `CreateVoucher` call on a table respecting the primary-key constraint
leaves exactly the candidate at its natural key, and returns it. -/
lemma createVoucher_rowsAt_single (t : List ConvenienceVoucher)
    (v : ConvenienceVoucher)
    (hpk : (voucherRowsAt t v.inputIndex v.outputIndex).length ≤ 1) :
    voucherRowsAt (createVoucher t v).1 v.inputIndex v.outputIndex = [v] ∧
      (createVoucher t v).2 = Except.ok v := by
  rcases hfind : findVoucherByInputAndOutputIndex t v.inputIndex v.outputIndex with _ | w
  · have hnil := (find?_voucher_eq_none_iff t v.inputIndex v.outputIndex).mp hfind
    constructor
    · simp [createVoucher, hfind, voucherRepoCreate, voucherRowsAt_append_match, hnil]
    · simp [createVoucher, hfind]
  · have hne : voucherRowsAt t v.inputIndex v.outputIndex ≠ [] := by
      intro hnil
      rw [(find?_voucher_eq_none_iff t v.inputIndex v.outputIndex).mpr hnil] at hfind
      exact Option.noConfusion hfind
    have hlen : (voucherRowsAt t v.inputIndex v.outputIndex).length = 1 := by
      have hpos : 0 < (voucherRowsAt t v.inputIndex v.outputIndex).length :=
        List.length_pos.mpr hne
      omega
    have hall := voucherRowsAt_update_self t v hne
    have hlen2 : (voucherRowsAt (voucherRepoUpdate t v) v.inputIndex v.outputIndex).length = 1 := by
      rw [voucherRowsAt_update]
      simpa using hlen
    constructor
    · rcases hrows : voucherRowsAt (voucherRepoUpdate t v) v.inputIndex v.outputIndex with _ | ⟨r, rest⟩
      · rw [hrows] at hlen2; simp at hlen2
      · rw [hrows] at hlen2
        simp at hlen2
        have hr : r = v := hall r (by rw [hrows]; exact List.mem_cons_self r rest)
        simp [createVoucher, hfind]
        subst hlen2
        subst hr
        exact hrows
    · simp [createVoucher, hfind]

/-- **C1** — Idempotent voucher upsert: starting from any table respecting the
primary-key constraint (at most one row at the key `K = (i, o)`), calling
`ConvenienceService.CreateVoucher` with candidate `A` and then with candidate
`B`, both keyed `K`, leaves exactly one stored row at `K`, that row carries
`B`'s field values, and the second call returns without error. -/
theorem createVoucher_upsert_second_wins
    (t : List ConvenienceVoucher) (A B : ConvenienceVoucher) (i o : Nat)
    (hAi : A.inputIndex = i) (hAo : A.outputIndex = o)
    (hBi : B.inputIndex = i) (hBo : B.outputIndex = o)
    (hpk : (voucherRowsAt t i o).length ≤ 1) :
    voucherRowsAt (createVoucher (createVoucher t A).1 B).1 i o = [B] ∧
      (createVoucher (createVoucher t A).1 B).2 = Except.ok B := by
  subst hBi hBo
  rw [← hAi, ← hAo] at hpk
  have h1 := createVoucher_rowsAt_single t A hpk
  have h1r : voucherRowsAt (createVoucher t A).1 B.inputIndex B.outputIndex = [A] := by
    rw [hAi, hAo] at h1
    exact h1.1
  have h2 := createVoucher_rowsAt_single (createVoucher t A).1 B
    (by rw [h1r]; simp)
  exact h2

/-- Witness for `createVoucher_upsert_second_wins` at a concrete input
(the scenario of `TestCreateVoucherIdempotency`). -/
theorem createVoucher_upsert_second_wins_witness :
    voucherRowsAt (createVoucher (createVoucher []
        ⟨zeroAddress, "0x11", 1, 2, false, zeroAddress⟩).1
        ⟨zeroAddress, "0x22", 1, 2, false, zeroAddress⟩).1 1 2 =
      [⟨zeroAddress, "0x22", 1, 2, false, zeroAddress⟩] ∧
    (createVoucher (createVoucher []
        ⟨zeroAddress, "0x11", 1, 2, false, zeroAddress⟩).1
        ⟨zeroAddress, "0x22", 1, 2, false, zeroAddress⟩).2 =
      Except.ok ⟨zeroAddress, "0x22", 1, 2, false, zeroAddress⟩ :=
  createVoucher_upsert_second_wins []
    ⟨zeroAddress, "0x11", 1, 2, false, zeroAddress⟩
    ⟨zeroAddress, "0x22", 1, 2, false, zeroAddress⟩
    1 2 rfl rfl rfl rfl (by decide)

/-! ## C3: report upsert -/

lemma reportRowsAt_update (tbl : List Report) (v : Report) :
    reportRowsAt (reportRepoUpdate tbl v) v.inputIndex v.index =
      (reportRowsAt tbl v.inputIndex v.index).map
        (fun r => { r with payload := v.payload }) := by
  induction tbl with
  | nil => rfl
  | cons r t ih =>
    by_cases h : r.inputIndex = v.inputIndex ∧ r.index = v.index
    · simp [reportRepoUpdate, reportRowsAt, h] at ih ⊢
      exact ih
    · simp [reportRepoUpdate, reportRowsAt, h] at ih ⊢
      exact ih

lemma reportRowsAt_append_match (tbl : List Report) (v : Report) :
    reportRowsAt (tbl ++ [v]) v.inputIndex v.index =
      reportRowsAt tbl v.inputIndex v.index ++ [v] := by
  simp [reportRowsAt, List.filter_append]

lemma reportFind_eq_none_iff (tbl : List Report) (i o : Nat) :
    reportFindByInputAndOutputIndex tbl i o = none ↔ reportRowsAt tbl i o = [] := by
  constructor
  · intro h
    have hf : tbl.find? (fun r => decide (r.inputIndex = i ∧ r.index = o)) = none := by
      rcases hv : tbl.find? (fun r => decide (r.inputIndex = i ∧ r.index = o)) with _ | w
      · exact hv
      · rw [reportFindByInputAndOutputIndex, hv] at h
        exact Option.noConfusion h
    exact List.filter_eq_nil_iff.mpr (fun a ha => List.find?_eq_none.mp hf a ha)
  · intro h
    rw [reportFindByInputAndOutputIndex,
      List.find?_eq_none.mpr (fun a ha => List.filter_eq_nil_iff.mp h a ha)]
    rfl

/-- **C3 counterexample** — `CreateReport` twice at key `(1, 2)`, first with
payload `[0x11]`, then with payload `[0x22]`: the stored row keeps the FIRST
payload, because the service passes the *found* record (not the candidate) to
`reportRepository.Update`.  The claim says the row should carry the second
call's payload `[0x22]`. -/
theorem createReport_second_payload_loses :
    (createReport (createReport [] ⟨2, 1, [0x11], zeroAddress⟩).1
        ⟨2, 1, [0x22], zeroAddress⟩).1 = [⟨2, 1, [0x11], zeroAddress⟩] ∧
      ([0x11] : List Nat) ≠ [0x22] := by
  constructor
  · rfl
  · decide

/-- **C3 amended** — for a table with no row yet at the natural key
`(InputIndex, Index) = (i, o)`, calling `CreateReport(A)` then
`CreateReport(B)` with the same key leaves exactly one row at the key, and
that row carries the FIRST call's payload (the second call's update is applied
to the found record, so it is a content no-op); the second call returns
without error. -/
theorem createReport_twice_keeps_first_payload
    (t : List Report) (A B : Report) (i o : Nat)
    (hAi : A.inputIndex = i) (hAo : A.index = o)
    (hBi : B.inputIndex = i) (hBo : B.index = o)
    (h0 : reportRowsAt t i o = []) :
    reportRowsAt (createReport (createReport t A).1 B).1 i o = [A] ∧
      (createReport (createReport t A).1 B).2.isOk = true := by
  subst hAi hAo
  have hfind : reportFindByInputAndOutputIndex t A.inputIndex A.index = none :=
    (reportFind_eq_none_iff t A.inputIndex A.index).mpr h0
  have ht1 : (createReport t A).1 = t ++ [A] := by
    simp [createReport, hfind, reportRepoCreate]
  have hrows1 : reportRowsAt (t ++ [A]) A.inputIndex A.index = [A] := by
    rw [reportRowsAt_append_match, h0]
    rfl
  have hfind1 : reportFindByInputAndOutputIndex (t ++ [A]) B.inputIndex B.index =
      some { inputIndex := A.inputIndex, index := A.index,
             payload := A.payload, appContract := zeroAddress } := by
    rw [hBi, hBo]
    have hmem : A ∈ reportRowsAt (t ++ [A]) A.inputIndex A.index := by
      rw [hrows1]; exact List.mem_singleton.mpr rfl
    have hnone : t.find? (fun r => decide (r.inputIndex = A.inputIndex ∧ r.index = A.index)) = none := by
      refine List.find?_eq_none.mpr (fun a ha hpa => ?_)
      have : a ∈ reportRowsAt t A.inputIndex A.index := List.mem_filter.mpr ⟨ha, hpa⟩
      rw [h0] at this
      exact absurd this (List.not_mem_nil a)
    rw [reportFindByInputAndOutputIndex, List.find?_append, hnone]
    simp
  have hupd : (createReport (t ++ [A]) B).1 =
      reportRepoUpdate (t ++ [A])
        { inputIndex := A.inputIndex, index := A.index,
          payload := A.payload, appContract := zeroAddress } := by
    simp [createReport, hfind1]
  refine ⟨?_, ?_⟩
  · rw [ht1, hupd]
    have := reportRowsAt_update (t ++ [A])
      { inputIndex := A.inputIndex, index := A.index,
        payload := A.payload, appContract := zeroAddress }
    simp only at this
    rw [this, hrows1]
    rfl
  · rw [ht1]
    simp [createReport, hfind1, Except.isOk, Except.toBool]

/-- Witness for `createReport_twice_keeps_first_payload` at a concrete input
(the scenario of `TestCreateReportIdempotency`). -/
theorem createReport_twice_keeps_first_payload_witness :
    reportRowsAt (createReport (createReport [] ⟨2, 1, [], zeroAddress⟩).1
        ⟨2, 1, [0x11, 0x22], zeroAddress⟩).1 1 2 = [⟨2, 1, [], zeroAddress⟩] ∧
      (createReport (createReport [] ⟨2, 1, [], zeroAddress⟩).1
        ⟨2, 1, [0x11, 0x22], zeroAddress⟩).2.isOk = true :=
  createReport_twice_keeps_first_payload [] ⟨2, 1, [], zeroAddress⟩
    ⟨2, 1, [0x11, 0x22], zeroAddress⟩ 1 2 rfl rfl rfl rfl rfl

/-! ## Output decoding and the synchronizer worker (synchronizer_create.go)

The payload of a raw output arrives as a hex string with a `0x` prefix; the
worker compares its first four bytes (eight hex characters) with the voucher
selector, strips them, and routes the record to the voucher or notice upsert.
-/

/-- Rows of a notice table at a natural key. -/
def noticeRowsAt (tbl : List ConvenienceNotice) (inputIndex outputIndex : Nat) :
    List ConvenienceNotice :=
  tbl.filter (fun n => n.inputIndex = inputIndex ∧ n.outputIndex = outputIndex)

lemma noticeRowsAt_update (tbl : List ConvenienceNotice) (v : ConvenienceNotice) :
    noticeRowsAt (noticeRepoUpdate tbl v) v.inputIndex v.outputIndex =
      (noticeRowsAt tbl v.inputIndex v.outputIndex).map
        (fun r => { r with payload := v.payload }) := by
  induction tbl with
  | nil => rfl
  | cons r t ih =>
    by_cases h : r.inputIndex = v.inputIndex ∧ r.outputIndex = v.outputIndex
    · simp [noticeRepoUpdate, noticeRowsAt, h] at ih ⊢
      exact ih
    · simp [noticeRepoUpdate, noticeRowsAt, h] at ih ⊢
      exact ih

lemma noticeRowsAt_append_match (tbl : List ConvenienceNotice) (v : ConvenienceNotice) :
    noticeRowsAt (tbl ++ [v]) v.inputIndex v.outputIndex =
      noticeRowsAt tbl v.inputIndex v.outputIndex ++ [v] := by
  simp [noticeRowsAt, List.filter_append]

lemma find?_notice_eq_none_iff (tbl : List ConvenienceNotice) (i o : Nat) :
    noticeFindByInputAndOutputIndex tbl i o = none ↔ noticeRowsAt tbl i o = [] := by
  constructor
  · intro h
    have := List.find?_eq_none.mp h
    exact List.filter_eq_nil_iff.mpr (fun a ha => this a ha)
  · intro h
    exact List.find?_eq_none.mpr (fun a ha => List.filter_eq_nil_iff.mp h a ha)

/-- One `CreateNotice` call on a table respecting the primary-key constraint
leaves exactly one row at the candidate's natural key, carrying the
candidate's payload. -/
lemma createNotice_rowsAt_single (t : List ConvenienceNotice)
    (v : ConvenienceNotice)
    (hpk : (noticeRowsAt t v.inputIndex v.outputIndex).length ≤ 1) :
    (∃ r, noticeRowsAt (createNotice t v).1 v.inputIndex v.outputIndex = [r] ∧
        r.payload = v.payload ∧ r.inputIndex = v.inputIndex ∧
        r.outputIndex = v.outputIndex) ∧
      (createNotice t v).2 = Except.ok v := by
  rcases hfind : noticeFindByInputAndOutputIndex t v.inputIndex v.outputIndex with _ | w
  · have hnil := (find?_notice_eq_none_iff t v.inputIndex v.outputIndex).mp hfind
    refine ⟨⟨v, ?_, rfl, rfl, rfl⟩, by simp [createNotice, hfind]⟩
    simp [createNotice, hfind, noticeRepoCreate, noticeRowsAt_append_match, hnil]
  · have hne : noticeRowsAt t v.inputIndex v.outputIndex ≠ [] := by
      intro hnil
      rw [(find?_notice_eq_none_iff t v.inputIndex v.outputIndex).mpr hnil] at hfind
      exact Option.noConfusion hfind
    have hlen : (noticeRowsAt t v.inputIndex v.outputIndex).length = 1 := by
      have hpos : 0 < (noticeRowsAt t v.inputIndex v.outputIndex).length :=
        List.length_pos.mpr hne
      omega
    rcases hrows : noticeRowsAt t v.inputIndex v.outputIndex with _ | ⟨r0, rest⟩
    · exact absurd hrows hne
    · rw [hrows] at hlen
      simp at hlen
      have hkey : r0.inputIndex = v.inputIndex ∧ r0.outputIndex = v.outputIndex := by
        have hm : r0 ∈ noticeRowsAt t v.inputIndex v.outputIndex := by
          rw [hrows]; exact List.mem_cons_self r0 rest
        have := List.mem_filter.mp hm
        simpa using this.2
      refine ⟨⟨{ r0 with payload := v.payload }, ?_, rfl, hkey.1, hkey.2⟩,
        by simp [createNotice, hfind]⟩
      have hupd : (createNotice t v).1 = noticeRepoUpdate t v := by
        simp [createNotice, hfind]
      rw [hupd, noticeRowsAt_update, hrows, hlen]
      rfl

/-- Hexadecimal digit test for a character. -/
def isHexDigitChar (c : Char) : Bool :=
  c.isDigit ∨ ('a' ≤ c ∧ c ≤ 'f') ∨ ('A' ≤ c ∧ c ≤ 'F')

/-- Value of a hexadecimal digit character. -/
def hexVal (c : Char) : Nat :=
  if c.isDigit then c.toNat - '0'.toNat
  else if 'a' ≤ c ∧ c ≤ 'f' then c.toNat - 'a'.toNat + 10
  else c.toNat - 'A'.toNat + 10

/-- `common.Hex2Bytes` on a character list: decode pairs of hex digits,
stopping (and discarding the rest) at the first non-hex character or an odd
trailing digit, like `hex.DecodeString` whose error Hex2Bytes ignores. -/
def hex2BytesAux : List Char → List Nat
  | c1 :: c2 :: rest =>
    if isHexDigitChar c1 ∧ isHexDigitChar c2 then
      (16 * hexVal c1 + hexVal c2) :: hex2BytesAux rest
    else []
  | _ => []

/-- `common.Hex2Bytes` on a string (no `0x` prefix expected). -/
def hex2Bytes (s : String) : List Nat := hex2BytesAux s.data

/-- Modelled from the spec: `model.VOUCHER_SELECTOR` — the well-known
4-byte `Voucher` selector of the Outputs contract, as eight hex characters
(the value pinned by `OutputDecoderSuite.TestHandleOutput`). -/
def VOUCHER_SELECTOR : String := "ef615e2f"

/-- Byte-index string slicing, Go `s[n:]` (strings here are ASCII hex, so
character positions coincide with byte positions).  Defined structurally on
the character list so that it evaluates definitionally. -/
def strDrop (s : String) (n : Nat) : String := String.mk (s.data.drop n)

/-- Byte-index string slicing, Go `s[:n]` (on a suffix, `s[a:b]`). -/
def strTake (s : String) (n : Nat) : String := String.mk (s.data.take n)

/-- `strconv.Atoi` on a decimal string (the non-negative case the raw
`output.index` column carries). -/
def atoiNat (s : String) : Option Nat :=
  if s.data ≠ [] ∧ s.data.all Char.isDigit then
    some (s.data.foldl (fun n c => 10 * n + (c.toNat - '0'.toNat)) 0)
  else none

/-- `SynchronizerCreateWorker.RemoveSelector`:
`fmt.Sprintf("0x%s", payload[10:])` — strip the `0x` prefix and the 8 selector
characters, put the prefix back. -/
def RemoveSelector (payload : String) : String := "0x" ++ strDrop payload 10

/-- `SynchronizerCreateWorker.RetrieveDestination`: ABI-unpack of the
selector-stripped payload against the Outputs ABI `Voucher(address,uint256,bytes)`
signature, yielding the first value (the destination address).  The
go-ethereum unpacker is modelled at the level the claims need: it requires the
three 32-byte head words to be present and reads the address from the last 20
bytes of the first word (the library's dynamic-offset validation of the
`bytes` argument is not modelled; omitting it only removes error cases). -/
def RetrieveDestination (payload : String) : Except String Address :=
  let bytes := hex2Bytes (strDrop payload 10)
  if 96 ≤ bytes.length then Except.ok ((bytes.drop 12).take 20)
  else Except.error "abi: cannot unpack"

/-- `common.BytesToAddress`: keep the last 20 bytes, left-padding with zeros. -/
def bytesToAddress (b : List Nat) : Address :=
  if 20 ≤ b.length then b.drop (b.length - 20)
  else List.replicate (20 - b.length) 0 ++ b

/-- `synchronizernode.RawInput` — a row of the raw node database's `input`
table (the fields the worker reads). -/
structure RawInputRow where
  id : Nat
  index : Nat
  rawData : List Nat
  status : String
  applicationAddress : List Nat
  transactionId : List Nat
  deriving Repr, DecidableEq

/-- `synchronizernode.Output` — a row of the raw `output` table. -/
structure OutputRow where
  id : Nat
  index : String
  rawData : List Nat
  inputId : Nat
  deriving Repr, DecidableEq

/-- `repository.RawOutputRef` — the high-water bookkeeping row the worker
builds for each processed raw output. -/
structure RawOutputRef where
  rawID : Nat
  inputIndex : Nat
  outputIndex : Nat
  appContract : Address
  type : String
  deriving Repr, DecidableEq

/-- `RawRepository.FindInputByOutput`:
`SELECT * FROM input WHERE input.id = $1 LIMIT 1` (the `FilterID.IDgt` field
is used as an equality bind despite its name). -/
def findInputByOutput (rawInputs : List RawInputRow) (inputId : Nat) :
    Option RawInputRow :=
  rawInputs.find? (fun i => i.id = inputId)

/-- `SynchronizerCreateWorker.GetRawOutputRef`: route a raw output by its
payload's 4-byte selector to the voucher or the notice upsert and build its
`RawOutputRef`.  `payload?` is the `data["payload"]` lookup of the ABI-decoded
field map.  A missing raw input would be a nil-pointer dereference in Go
(modelled as an error), and a payload shorter than 10 characters would make
`strPayload[2:10]` panic (also modelled as an error). -/
def GetRawOutputRef (payload? : Option String) (rawInputs : List RawInputRow)
    (output : OutputRow) (vtbl : List ConvenienceVoucher)
    (ntbl : List ConvenienceNotice) :
    Except String (RawOutputRef × List ConvenienceVoucher × List ConvenienceNotice) :=
  match payload? with
  | none => Except.error "payload not found"
  | some strPayload =>
    match findInputByOutput rawInputs output.inputId with
    | none => Except.error "panic: nil raw input"
    | some input =>
      let outputIndex := (atoiNat output.index).getD 0
      if strPayload.length < 10 then Except.error "panic: slice bounds out of range"
      else
        let ref : RawOutputRef :=
          { rawID := output.id, inputIndex := input.index,
            outputIndex := outputIndex,
            appContract := bytesToAddress input.applicationAddress, type := "" }
        if strTake (strDrop strPayload 2) 8 = VOUCHER_SELECTOR then
          match RetrieveDestination strPayload with
          | Except.error _ => Except.error "destination not found"
          | Except.ok destination =>
            let cVoucher : ConvenienceVoucher :=
              { destination := destination, payload := RemoveSelector strPayload,
                inputIndex := input.index, outputIndex := outputIndex,
                executed := false, appContract := zeroAddress }
            match createVoucher vtbl cVoucher with
            | (vtbl1, Except.ok _) => Except.ok ({ ref with type := "voucher" }, vtbl1, ntbl)
            | (_, Except.error _) => Except.error "voucher not created"
        else
          let cNotice : ConvenienceNotice :=
            { payload := RemoveSelector strPayload, inputIndex := input.index,
              outputIndex := outputIndex, appContract := zeroAddress }
          match createNotice ntbl cNotice with
          | (ntbl1, Except.ok _) => Except.ok ({ ref with type := "voucher" }, vtbl, ntbl1)
          | (_, Except.error _) => Except.error "notice not created"

lemma createVoucher_ok (t : List ConvenienceVoucher) (v : ConvenienceVoucher) :
    (createVoucher t v).2 = Except.ok v := by
  rcases hfind : findVoucherByInputAndOutputIndex t v.inputIndex v.outputIndex with _ | w <;>
    simp [createVoucher, hfind]

lemma createNotice_ok (t : List ConvenienceNotice) (v : ConvenienceNotice) :
    (createNotice t v).2 = Except.ok v := by
  rcases hfind : noticeFindByInputAndOutputIndex t v.inputIndex v.outputIndex with _ | w <;>
    simp [createNotice, hfind]

lemma GetRawOutputRef_voucher_eq (p : String) (rawInputs : List RawInputRow)
    (output : OutputRow) (vt : List ConvenienceVoucher) (nt : List ConvenienceNotice)
    (input : RawInputRow) (d : Address)
    (hfind : findInputByOutput rawInputs output.inputId = some input)
    (hlen : 10 ≤ p.length)
    (hsel : strTake (strDrop p 2) 8 = VOUCHER_SELECTOR)
    (hdest : RetrieveDestination p = Except.ok d) :
    GetRawOutputRef (some p) rawInputs output vt nt =
      Except.ok
        ({ rawID := output.id, inputIndex := input.index,
           outputIndex := (atoiNat output.index).getD 0,
           appContract := bytesToAddress input.applicationAddress,
           type := "voucher" },
         (createVoucher vt
           { destination := d, payload := RemoveSelector p,
             inputIndex := input.index,
             outputIndex := (atoiNat output.index).getD 0,
             executed := false, appContract := zeroAddress }).1,
         nt) := by
  have hnotlt : ¬ (p.length < 10) := by omega
  have hcv := createVoucher_ok vt
    { destination := d, payload := RemoveSelector p, inputIndex := input.index,
      outputIndex := (atoiNat output.index).getD 0,
      executed := false, appContract := zeroAddress }
  simp only [GetRawOutputRef, hfind, hnotlt, if_false, hsel, if_true, hdest, ite_true,
    ite_false]
  rcases hpair : createVoucher vt
      { destination := d, payload := RemoveSelector p, inputIndex := input.index,
        outputIndex := (atoiNat output.index).getD 0,
        executed := false, appContract := zeroAddress } with ⟨vt1, res⟩
  rw [hpair] at hcv
  simp at hcv
  subst hcv
  rfl

lemma GetRawOutputRef_notice_eq (p : String) (rawInputs : List RawInputRow)
    (output : OutputRow) (vt : List ConvenienceVoucher) (nt : List ConvenienceNotice)
    (input : RawInputRow)
    (hfind : findInputByOutput rawInputs output.inputId = some input)
    (hlen : 10 ≤ p.length)
    (hsel : ¬ strTake (strDrop p 2) 8 = VOUCHER_SELECTOR) :
    GetRawOutputRef (some p) rawInputs output vt nt =
      Except.ok
        ({ rawID := output.id, inputIndex := input.index,
           outputIndex := (atoiNat output.index).getD 0,
           appContract := bytesToAddress input.applicationAddress,
           type := "voucher" },
         vt,
         (createNotice nt
           { payload := RemoveSelector p, inputIndex := input.index,
             outputIndex := (atoiNat output.index).getD 0,
             appContract := zeroAddress }).1) := by
  have hnotlt : ¬ (p.length < 10) := by omega
  have hcn := createNotice_ok nt
    { payload := RemoveSelector p, inputIndex := input.index,
      outputIndex := (atoiNat output.index).getD 0, appContract := zeroAddress }
  simp only [GetRawOutputRef, hfind, hnotlt, if_false, hsel, ite_true, ite_false]
  rcases hpair : createNotice nt
      { payload := RemoveSelector p, inputIndex := input.index,
        outputIndex := (atoiNat output.index).getD 0, appContract := zeroAddress }
    with ⟨nt1, res⟩
  rw [hpair] at hcn
  simp at hcn
  subst hcn
  rfl

/-- **C2** — Decoder selector routing: a raw output whose (hex) payload starts
with the voucher selector produces exactly one `ConvenienceVoucher` row at the
record's key, carrying the ABI-decoded destination and the selector-stripped
payload, with the notice table untouched; a payload with any other 4-byte
prefix produces exactly one `ConvenienceNotice` row at the key carrying the
selector-stripped payload, with the voucher table untouched. -/
theorem getRawOutputRef_selector_routing
    (p : String) (rawInputs : List RawInputRow) (output : OutputRow)
    (vt : List ConvenienceVoucher) (nt : List ConvenienceNotice)
    (input : RawInputRow)
    (hfind : findInputByOutput rawInputs output.inputId = some input)
    (hlen : 10 ≤ p.length)
    (hvpk : (voucherRowsAt vt input.index ((atoiNat output.index).getD 0)).length ≤ 1)
    (hnpk : (noticeRowsAt nt input.index ((atoiNat output.index).getD 0)).length ≤ 1) :
    (strTake (strDrop p 2) 8 = VOUCHER_SELECTOR →
      ∀ d, RetrieveDestination p = Except.ok d →
        ∃ ref vt1,
          GetRawOutputRef (some p) rawInputs output vt nt = Except.ok (ref, vt1, nt) ∧
          voucherRowsAt vt1 input.index ((atoiNat output.index).getD 0) =
            [⟨d, RemoveSelector p, input.index, (atoiNat output.index).getD 0,
              false, zeroAddress⟩]) ∧
    (¬ strTake (strDrop p 2) 8 = VOUCHER_SELECTOR →
      ∃ ref nt1 r,
        GetRawOutputRef (some p) rawInputs output vt nt = Except.ok (ref, vt, nt1) ∧
        noticeRowsAt nt1 input.index ((atoiNat output.index).getD 0) = [r] ∧
        r.payload = RemoveSelector p) := by
  constructor
  · intro hsel d hdest
    have heq := GetRawOutputRef_voucher_eq p rawInputs output vt nt input d
      hfind hlen hsel hdest
    have hsingle := createVoucher_rowsAt_single vt
      { destination := d, payload := RemoveSelector p, inputIndex := input.index,
        outputIndex := (atoiNat output.index).getD 0,
        executed := false, appContract := zeroAddress } hvpk
    exact ⟨_, _, heq, hsingle.1⟩
  · intro hsel
    have heq := GetRawOutputRef_notice_eq p rawInputs output vt nt input
      hfind hlen hsel
    have hsingle := createNotice_rowsAt_single nt
      { payload := RemoveSelector p, inputIndex := input.index,
        outputIndex := (atoiNat output.index).getD 0, appContract := zeroAddress } hnpk
    obtain ⟨⟨r, hr, hpayload, _, _⟩, _⟩ := hsingle
    exact ⟨_, _, r, heq, hr, hpayload⟩

/-- A concrete voucher-selector payload with an all-zero ABI tail. -/
def voucherPayloadExample : String :=
  String.mk ('0' :: 'x' :: "ef615e2f".data ++ List.replicate 192 '0')

set_option maxRecDepth 8192 in
/-- Witness for `getRawOutputRef_selector_routing`: a voucher-selector payload
with an all-zero ABI tail on an empty store. -/
theorem getRawOutputRef_selector_routing_witness :
    ∃ ref vt1,
      GetRawOutputRef (some voucherPayloadExample)
          [⟨7, 4, [], "NONE", [], []⟩] ⟨9, "5", [], 7⟩ [] [] =
        Except.ok (ref, vt1, ([] : List ConvenienceNotice)) ∧
      voucherRowsAt vt1 4 5 =
        [⟨zeroAddress, RemoveSelector voucherPayloadExample, 4, 5, false, zeroAddress⟩] := by
  exact (getRawOutputRef_selector_routing voucherPayloadExample
      [⟨7, 4, [], "NONE", [], []⟩] ⟨9, "5", [], 7⟩ [] [] ⟨7, 4, [], "NONE", [], []⟩
      (by rfl) (by decide) (by decide) (by decide)).1
    (by rfl) zeroAddress (by rfl)

/-- **C10** — Every successfully processed raw output yields a `RawOutputRef`
whose `Type` is the string `"voucher"`, regardless of which branch (voucher or
notice) handled it: the notice branch of `GetRawOutputRef` also assigns
`rawOutputRef.Type = "voucher"`. -/
theorem getRawOutputRef_type_always_voucher
    (payload? : Option String) (rawInputs : List RawInputRow) (output : OutputRow)
    (vt : List ConvenienceVoucher) (nt : List ConvenienceNotice)
    (res : RawOutputRef × List ConvenienceVoucher × List ConvenienceNotice)
    (h : GetRawOutputRef payload? rawInputs output vt nt = Except.ok res) :
    res.1.type = "voucher" := by
  rcases payload? with _ | p
  · simp [GetRawOutputRef] at h
  · rcases hf : findInputByOutput rawInputs output.inputId with _ | input
    · simp [GetRawOutputRef, hf] at h
    · by_cases h10 : p.length < 10
      · simp [GetRawOutputRef, hf, h10] at h
      · by_cases hsel : strTake (strDrop p 2) 8 = VOUCHER_SELECTOR
        · rcases hdest : RetrieveDestination p with e | d
          · simp [GetRawOutputRef, hf, h10, hsel, hdest] at h
          · rw [GetRawOutputRef_voucher_eq p rawInputs output vt nt input d hf
              (by omega) hsel hdest] at h
            injection h with h
            rw [← h]
        · rw [GetRawOutputRef_notice_eq p rawInputs output vt nt input hf
            (by omega) hsel] at h
          injection h with h
          rw [← h]

/-- Witness for `getRawOutputRef_type_always_voucher`: a notice-prefixed
payload still yields `Type = "voucher"`. -/
theorem getRawOutputRef_type_always_voucher_witness :
    ({ rawID := 9, inputIndex := 4, outputIndex := 5, appContract := zeroAddress,
       type := "voucher" } : RawOutputRef).type = "voucher" :=
  getRawOutputRef_type_always_voucher (some "0x0000000011") [⟨7, 4, [], "NONE", [], []⟩]
    ⟨9, "5", [], 7⟩ [] []
    ({ rawID := 9, inputIndex := 4, outputIndex := 5, appContract := zeroAddress,
       type := "voucher" },
     [],
     [{ payload := "0x11", inputIndex := 4, outputIndex := 5, appContract := zeroAddress }])
    (by rfl)

/-! ## Raw input synchronization (synchronizer_create.go, second document)

`syncInputCreation` fetches a batch of raw `input` rows above the high-water
mark, handles them in order, and advances the mark to `row.id + 1` after each
successfully handled row. -/

/-- `repository.RawInputRef` — high-water bookkeeping row per synchronized
input. -/
structure RawInputRef where
  id : String
  rawID : Nat
  inputIndex : Nat
  appContract : Address
  status : String
  chainID : Nat
  deriving Repr, DecidableEq

/-- The decoded field map of an `EvmAdvance` input blob
(`GetMapRaw` + the lookups of `GetAdvanceInputFromMap`). -/
structure DecodedInput where
  chainId : Nat
  appContract : Address
  msgSender : Address
  blockNumber : Nat
  blockTimestamp : Nat
  prevRandao : Nat
  index : Nat
  payload : List Nat
  deriving Repr, DecidableEq

/-- Big-endian byte-list value. -/
def beNat (bs : List Nat) : Nat := bs.foldl (fun n b => 256 * n + b) 0

/-- The `i`-th 32-byte head word of an ABI argument area. -/
def word32 (bs : List Nat) (i : Nat) : List Nat := (bs.drop (32 * i)).take 32

/-- Address argument: last 20 bytes of a 32-byte word. -/
def addrOfWord (w : List Nat) : Address := (w.drop 12).take 20

/-- `GetMapRaw` against the Inputs ABI, modelled for the
`EvmAdvance(uint256,address,address,uint256,uint256,uint256,uint256,bytes)`
method: the first 4 bytes select the method, the next 8 × 32 bytes are the
head words, and the remaining bytes stand for the dynamic `payload` argument
(the library's offset indirection is not modelled; omitting it only changes
which malformed blobs error).  Fewer than 4 bytes would panic in Go
(`rawData[:4]`), modelled as an error. -/
def decodeEvmAdvance (rawData : List Nat) : Except String DecodedInput :=
  if rawData.length < 4 then Except.error "panic: slice bounds out of range"
  else
    let args := rawData.drop 4
    if 256 ≤ args.length then
      Except.ok
        { chainId := beNat (word32 args 0),
          appContract := addrOfWord (word32 args 1),
          msgSender := addrOfWord (word32 args 2),
          blockNumber := beNat (word32 args 3),
          blockTimestamp := beNat (word32 args 4),
          prevRandao := beNat (word32 args 5),
          index := beNat (word32 args 6),
          payload := args.drop 256 }
    else Except.error "abi: cannot unpack"

/-- Modelled from the spec: `commons.ConvertStatusStringToCompletionStatus`
is not under the sources in scope; the raw node statuses map onto the
`CompletionStatus` enum, with `NONE` (unprocessed) as the default. -/
def convertStatusStringToCompletionStatus (s : String) : CompletionStatus :=
  if s = "ACCEPTED" then CompletionStatus.accepted
  else if s = "REJECTED" then CompletionStatus.rejected
  else if s = "EXCEPTION" then CompletionStatus.exception
  else if s = "MACHINE_HALTED" then CompletionStatus.machineHalted
  else if s = "CYCLE_LIMIT_EXCEEDED" then CompletionStatus.cycleLimitExceeded
  else if s = "TIME_LIMIT_EXCEEDED" then CompletionStatus.timeLimitExceeded
  else if s = "PAYLOAD_LENGTH_LIMIT_EXCEEDED" then
    CompletionStatus.payloadLengthLimitExceeded
  else CompletionStatus.unprocessed

/-- Hex digit character for a nibble. -/
def nibbleChar (n : Nat) : Char :=
  if n < 10 then Char.ofNat (Char.toNat '0' + n)
  else Char.ofNat (Char.toNat 'a' + n - 10)

/-- `common.Bytes2Hex`. -/
def bytes2Hex (bs : List Nat) : String :=
  String.mk (bs.foldr (fun b acc => nibbleChar (b / 16) :: nibbleChar (b % 16) :: acc) [])

/-- `"0x" + prevRandao.Text(16)` — hex rendering of a number (digits via the
standard digit expansion). -/
def natToHexString (n : Nat) : String := String.mk ('0' :: 'x' :: Nat.toDigits 16 n)

/-- `InputRepository.FindByIndex`:
`SELECT ... FROM convenience_inputs WHERE input_index = $1` (first row). -/
def inputRepoFindByIndex (tbl : List AdvanceInput) (index : Nat) : Option AdvanceInput :=
  tbl.find? (fun i => i.index = index)

/-- `InputRepository.Create`: return the existing row at the index when there
is one, otherwise insert the candidate. -/
def inputRepoCreate (tbl : List AdvanceInput) (input : AdvanceInput) :
    List AdvanceInput × AdvanceInput :=
  match inputRepoFindByIndex tbl input.index with
  | some exist => (tbl, exist)
  | none => (tbl ++ [input], input)

/-- The projection state the input-creation worker writes. -/
structure SyncProjection where
  inputs : List AdvanceInput
  inputRefs : List RawInputRef
  deriving Repr, DecidableEq

/-- `SynchronizerCreateWorker.HandleInput`: decode the raw blob, build the
`AdvanceInput`, upsert it, record the `RawInputRef`, and return the raw row's
primary key (`rawInputRef.RawID = input.ID`). -/
def HandleInput (proj : SyncProjection) (input : RawInputRow) :
    Except String (Nat × SyncProjection) :=
  match decodeEvmAdvance input.rawData with
  | Except.error e => Except.error e
  | Except.ok d =>
    let advanceInput : AdvanceInput :=
      { id := bytes2Hex input.transactionId,
        appContract := d.appContract,
        index := input.index,
        inputBoxIndex := d.index,
        msgSender := d.msgSender,
        blockNumber := d.blockNumber,
        blockTimestamp := d.blockTimestamp,
        payload := d.payload,
        chainId := d.chainId,
        status := convertStatusStringToCompletionStatus input.status,
        prevRandao := natToHexString d.prevRandao,
        exception := [] }
    let created := inputRepoCreate proj.inputs advanceInput
    let ref : RawInputRef :=
      { id := created.2.id, rawID := input.id, inputIndex := input.index,
        appContract := bytesToAddress input.applicationAddress,
        status := input.status, chainID := d.chainId }
    Except.ok (ref.rawID,
      { inputs := created.1, inputRefs := proj.inputRefs ++ [ref] })

/-- Order on raw input rows by primary key. -/
def rawIdLE (a b : RawInputRow) : Prop := a.id ≤ b.id

instance : DecidableRel rawIdLE := fun a b => Nat.decLe a.id b.id

instance : IsTotal RawInputRow rawIdLE := ⟨fun a b => Nat.le_total a.id b.id⟩

instance : IsTrans RawInputRow rawIdLE := ⟨fun _ _ _ hab hbc => Nat.le_trans hab hbc⟩

/-- `RawRepository.FindAllInputsByFilter` for the filter `{IDgt: latest}`:
`SELECT * FROM input WHERE ID >= $1 ORDER BY ID ASC LIMIT $2` (despite the
field's name, the bind is `>=`).  The status filters of `FilterInput` are not
exercised by `syncInputCreation` and are not modelled. -/
def FindAllInputsByFilter (tbl : List RawInputRow) (idGt limit : Nat) :
    List RawInputRow :=
  (((List.insertionSort rawIdLE tbl).filter (fun r => idGt ≤ r.id)).take limit)

/-- The per-row loop of `syncInputCreation`: handle each fetched row, advance
the in-memory high-water candidate to `row.id + 1` after success, stop and
return on the first error.  The list component records the successfully
handled rows, in order (the Go loop's processing history). -/
def processBatch (batch : List RawInputRow) (proj : SyncProjection)
    (latestRawID : Nat) :
    Nat × SyncProjection × Except String Unit × List RawInputRow :=
  match batch with
  | [] => (latestRawID, proj, Except.ok (), [])
  | input :: rest =>
    match HandleInput proj input with
    | Except.error e => (latestRawID, proj, Except.error e, [])
    | Except.ok (rid, proj1) =>
      let r := processBatch rest proj1 (rid + 1)
      (r.1, r.2.1, r.2.2.1, input :: r.2.2.2)

/-- `SynchronizerCreateWorker.syncInputCreation`: fetch the batch above the
mark and run the per-row loop. -/
def syncInputCreation (raw : List RawInputRow) (proj : SyncProjection)
    (latestRawID limit : Nat) :
    Nat × SyncProjection × Except String Unit × List RawInputRow :=
  processBatch (FindAllInputsByFilter raw latestRawID limit) proj latestRawID

lemma HandleInput_ok_rid (proj : SyncProjection) (input : RawInputRow)
    (rid : Nat) (proj1 : SyncProjection)
    (h : HandleInput proj input = Except.ok (rid, proj1)) : rid = input.id := by
  rcases hd : decodeEvmAdvance input.rawData with e | d
  · rw [HandleInput, hd] at h
    exact Except.noConfusion h
  · rw [HandleInput, hd] at h
    simp at h
    exact h.1.symm

lemma processBatch_spec (batch : List RawInputRow) (proj : SyncProjection)
    (latestRawID : Nat)
    (hmem : ∀ x ∈ batch, latestRawID ≤ x.id)
    (hpair : batch.Pairwise (fun a b => a.id < b.id)) :
    latestRawID ≤ (processBatch batch proj latestRawID).1 ∧
      (processBatch batch proj latestRawID).2.2.2 <+: batch ∧
      ((processBatch batch proj latestRawID).2.2.2 = [] →
        (processBatch batch proj latestRawID).1 = latestRawID) ∧
      (∀ last, (processBatch batch proj latestRawID).2.2.2.getLast? = some last →
        (processBatch batch proj latestRawID).1 = last.id + 1) := by
  induction batch generalizing proj latestRawID with
  | nil =>
    refine ⟨Nat.le_refl _, List.prefix_refl _, fun _ => rfl, fun last hl => ?_⟩
    simp [processBatch] at hl
  | cons input rest ih =>
    rcases hh : HandleInput proj input with e | ⟨rid, proj1⟩
    · refine ⟨?_, ?_, ?_, ?_⟩ <;> simp [processBatch, hh]
    · have hrid : rid = input.id := HandleInput_ok_rid proj input rid proj1 hh
      subst hrid
      have hmem1 : ∀ x ∈ rest, input.id + 1 ≤ x.id := by
        intro x hx
        have := (List.pairwise_cons.mp hpair).1 x hx
        omega
      have hpair1 := (List.pairwise_cons.mp hpair).2
      obtain ⟨ihle, ihpre, ihnil, ihlast⟩ := ih proj1 (input.id + 1) hmem1 hpair1
      have hle0 : latestRawID ≤ input.id := hmem input (List.mem_cons_self input rest)
      refine ⟨?_, ?_, ?_, ?_⟩
      · simp only [processBatch, hh]
        omega
      · simp only [processBatch, hh]
        exact (List.prefix_cons_inj input).mpr ihpre
      · intro hnil
        simp only [processBatch, hh] at hnil
        exact absurd hnil (List.cons_ne_nil _ _)
      · intro last hl
        simp only [processBatch, hh] at hl ⊢
        rcases hrest : (processBatch rest proj1 (input.id + 1)).2.2.2 with _ | ⟨y, ys⟩
        · rw [hrest] at hl
          simp at hl
          subst hl
          exact ihnil hrest
        · rw [hrest] at hl
          rw [List.getLast?_cons_cons] at hl
          exact ihlast last (by rw [hrest]; exact hl)

lemma batch_pairwise_lt (raw : List RawInputRow) (idGt limit : Nat)
    (hnd : raw.Pairwise (fun a b => a.id ≠ b.id)) :
    (FindAllInputsByFilter raw idGt limit).Pairwise (fun a b => a.id < b.id) := by
  have hsorted : (List.insertionSort rawIdLE raw).Pairwise rawIdLE :=
    List.sorted_insertionSort rawIdLE raw
  have hperm : List.Perm (List.insertionSort rawIdLE raw) raw := List.perm_insertionSort rawIdLE raw
  have hne : (List.insertionSort rawIdLE raw).Pairwise (fun a b => a.id ≠ b.id) :=
    (hperm.pairwise_iff (fun h heq => h heq.symm)).mpr hnd
  have hcomb := hsorted.and hne
  have hlt : (List.insertionSort rawIdLE raw).Pairwise (fun a b => a.id < b.id) :=
    hcomb.imp (fun h => Nat.lt_of_le_of_ne h.1 h.2)
  have hsub : List.Sublist (FindAllInputsByFilter raw idGt limit)
      (List.insertionSort rawIdLE raw) :=
    List.Sublist.trans (List.take_sublist _ _) (List.filter_sublist _)
  exact hlt.sublist hsub

lemma batch_mem_ge (raw : List RawInputRow) (idGt limit : Nat) :
    ∀ x ∈ FindAllInputsByFilter raw idGt limit, idGt ≤ x.id := by
  intro x hx
  have hx1 := List.mem_of_mem_take hx
  have := (List.mem_filter.mp hx1).2
  simpa using this

/-- **C4** — Synchronizer batch invariants for the input-creation concern:
with distinct raw primary keys, the rows the iteration handles (its processing
history) are strictly ascending in raw id, they form a prefix of the fetched
batch (handled one by one, in order), and the returned high-water mark never
regresses: it equals the starting mark when nothing was handled, and
`last.id + 1` after the last successfully handled row — in particular it is
always `≥` the starting mark. -/
theorem syncInputCreation_ascending_mark_monotone
    (raw : List RawInputRow) (proj : SyncProjection) (latestRawID limit : Nat)
    (hnd : raw.Pairwise (fun a b => a.id ≠ b.id)) :
    (syncInputCreation raw proj latestRawID limit).2.2.2.Pairwise
        (fun a b => a.id < b.id) ∧
      (syncInputCreation raw proj latestRawID limit).2.2.2 <+:
        FindAllInputsByFilter raw latestRawID limit ∧
      latestRawID ≤ (syncInputCreation raw proj latestRawID limit).1 ∧
      ((syncInputCreation raw proj latestRawID limit).2.2.2 = [] →
        (syncInputCreation raw proj latestRawID limit).1 = latestRawID) ∧
      (∀ last,
        (syncInputCreation raw proj latestRawID limit).2.2.2.getLast? = some last →
        (syncInputCreation raw proj latestRawID limit).1 = last.id + 1) := by
  have hpair := batch_pairwise_lt raw latestRawID limit hnd
  have hmem := batch_mem_ge raw latestRawID limit
  obtain ⟨hle, hpre, hnil, hlast⟩ :=
    processBatch_spec (FindAllInputsByFilter raw latestRawID limit) proj latestRawID
      hmem hpair
  exact ⟨hpair.sublist hpre.sublist, hpre, hle, hnil, hlast⟩

/-- Witness for `syncInputCreation_ascending_mark_monotone` on a two-row raw
table. -/
theorem syncInputCreation_ascending_mark_monotone_witness :
    (syncInputCreation [⟨3, 0, [], "NONE", [], []⟩, ⟨5, 1, [], "NONE", [], []⟩]
        ⟨[], []⟩ 0 50).2.2.2.Pairwise (fun a b => a.id < b.id) ∧
      (syncInputCreation [⟨3, 0, [], "NONE", [], []⟩, ⟨5, 1, [], "NONE", [], []⟩]
        ⟨[], []⟩ 0 50).2.2.2 <+:
        FindAllInputsByFilter [⟨3, 0, [], "NONE", [], []⟩, ⟨5, 1, [], "NONE", [], []⟩] 0 50 ∧
      0 ≤ (syncInputCreation [⟨3, 0, [], "NONE", [], []⟩, ⟨5, 1, [], "NONE", [], []⟩]
        ⟨[], []⟩ 0 50).1 ∧
      ((syncInputCreation [⟨3, 0, [], "NONE", [], []⟩, ⟨5, 1, [], "NONE", [], []⟩]
        ⟨[], []⟩ 0 50).2.2.2 = [] →
        (syncInputCreation [⟨3, 0, [], "NONE", [], []⟩, ⟨5, 1, [], "NONE", [], []⟩]
        ⟨[], []⟩ 0 50).1 = 0) ∧
      (∀ last,
        (syncInputCreation [⟨3, 0, [], "NONE", [], []⟩, ⟨5, 1, [], "NONE", [], []⟩]
        ⟨[], []⟩ 0 50).2.2.2.getLast? = some last →
        (syncInputCreation [⟨3, 0, [], "NONE", [], []⟩, ⟨5, 1, [], "NONE", [], []⟩]
        ⟨[], []⟩ 0 50).1 = last.id + 1) :=
  syncInputCreation_ascending_mark_monotone
    [⟨3, 0, [], "NONE", [], []⟩, ⟨5, 1, [], "NONE", [], []⟩] ⟨[], []⟩ 0 50
    (by decide)

/-! ## Filters and cursor pagination (report_repository.go;
`commons.ComputePage` modelled from the spec) -/

/-- `model.ConvenienceFilter`: one per-field predicate of a filter list (the
operator pointers that the repository query builders read). -/
structure ConvenienceFilter where
  field : String
  eq : Option String := none
  ne : Option String := none
  gt : Option String := none
  lt : Option String := none
  deriving Repr, DecidableEq

/-- A comparison operator of a generated WHERE condition. -/
inductive CondOp where
  | eq
  | ne
  | gt
  | lt
  deriving Repr, DecidableEq

/-- One generated WHERE condition: `column <op> $n` with its bound value. -/
structure Cond where
  column : String
  op : CondOp
  value : String
  deriving Repr, DecidableEq

/-- `transformToReportQuery`: `OutputIndex` and `InputIndex` support only
`Eq`; any other field is `unexpected field`, a field whose checked operator
is absent is `operation not implemented`.  The conditions are joined by
`" and "` in the SQL string, i.e. as a conjunction. -/
def transformToReportQuery : List ConvenienceFilter → Except String (List Cond)
  | [] => Except.ok []
  | f :: rest =>
    if f.field = "OutputIndex" then
      match f.eq with
      | some v => (transformToReportQuery rest).map (fun cs => ⟨"output_index", CondOp.eq, v⟩ :: cs)
      | none => Except.error "operation not implemented"
    else if f.field = "InputIndex" then
      match f.eq with
      | some v => (transformToReportQuery rest).map (fun cs => ⟨"input_index", CondOp.eq, v⟩ :: cs)
      | none => Except.error "operation not implemented"
    else Except.error ("unexpected field " ++ f.field)

/-- SQL evaluation of one generated condition against a report row (the
bound value is a decimal string compared against the integer column). -/
def evalReportCond (c : Cond) (r : Report) : Bool :=
  let col := if c.column = "output_index" then r.index else r.inputIndex
  match atoiNat c.value with
  | some n =>
    match c.op with
    | CondOp.eq => col = n
    | CondOp.ne => col ≠ n
    | CondOp.gt => n < col
    | CondOp.lt => col < n
  | none => false

/-- A report row matches the WHERE clause iff it satisfies every condition
(the conditions are joined with `and`). -/
def matchesReport (conds : List Cond) (r : Report) : Bool :=
  conds.all (fun c => evalReportCond c r)

/-- `ReportRepository.Count`: count of the rows matching the filter. -/
def reportCount (tbl : List Report) (filter : List ConvenienceFilter) :
    Except String Nat :=
  (transformToReportQuery filter).map
    (fun conds => (tbl.filter (matchesReport conds)).length)

/-- Lexicographic order on reports by the natural key
(`ORDER BY input_index ASC, output_index ASC`). -/
def reportLE (a b : Report) : Prop :=
  a.inputIndex < b.inputIndex ∨ (a.inputIndex = b.inputIndex ∧ a.index ≤ b.index)

instance : DecidableRel reportLE := fun a b => by
  unfold reportLE
  infer_instance

/-- Modelled from the spec: `commons.EncodeCursor` — cursors encode a
zero-based row offset (the textual base64 wrapping is immaterial to the
pagination contract, so a cursor is its offset). -/
def EncodeCursor (offset : Nat) : Nat := offset

/-- Modelled from the spec: `commons.ComputePage` is not under the sources in
scope.  `first` alone starts at offset 0; `after` sets the offset to
`decode(after) + 1`; `last` alone computes `offset = max(0, total - last)`;
`before` makes the window end just prior to the decoded cursor. -/
def ComputePage (first? last? after? before? : Option Nat) (total : Nat) :
    Except String (Nat × Nat) :=
  match last? with
  | some l =>
    let e := match before? with
      | some b => b
      | none => total
    let o := e - l
    Except.ok (o, e - o)
  | none =>
    let o := match after? with
      | some a => a + 1
      | none => 0
    let lim := match first? with
      | some f => f
      | none => total - o
    Except.ok (o, lim)

/-- `commons.PageResult`. -/
structure PageResult (α : Type) where
  rows : List α
  total : Nat
  offset : Nat
  deriving Repr, DecidableEq

/-- `ReportRepository.FindAll`: count, build the WHERE clause, order by the
natural ascending key, and apply `LIMIT limit OFFSET offset` from
`ComputePage`. -/
def reportFindAll (tbl : List Report) (first? last? after? before? : Option Nat)
    (filter : List ConvenienceFilter) : Except String (PageResult Report) :=
  match reportCount tbl filter with
  | Except.error e => Except.error e
  | Except.ok total =>
    match transformToReportQuery filter with
    | Except.error e => Except.error e
    | Except.ok conds =>
      match ComputePage first? last? after? before? total with
      | Except.error e => Except.error e
      | Except.ok (offset, limit) =>
        let sorted := List.insertionSort reportLE tbl
        let matching := sorted.filter (matchesReport conds)
        Except.ok { rows := (matching.drop offset).take limit,
                    total := total, offset := offset }

/-- Thirty report rows with ascending natural indices `0..29`. -/
def thirtyReports : List Report :=
  (List.range 30).map (fun i => { index := 0, inputIndex := i, payload := [],
                                  appContract := zeroAddress })

/-- **C5** — Pagination correctness on 30 rows with ascending natural indices
0..29 and an all-matching (empty) filter: `first=10` returns rows 0..9;
`after=cursor(10)` with `first=10` returns rows 11..20; `last=10` returns rows
20..29; `before=cursor(20)` with `last=10` returns rows 10..19. -/
theorem reportFindAll_pagination_cases :
    ((reportFindAll thirtyReports (some 10) none none none []).map
        (fun p => p.rows.map Report.inputIndex) =
      Except.ok [0, 1, 2, 3, 4, 5, 6, 7, 8, 9]) ∧
    ((reportFindAll thirtyReports (some 10) none (some (EncodeCursor 10)) none []).map
        (fun p => p.rows.map Report.inputIndex) =
      Except.ok [11, 12, 13, 14, 15, 16, 17, 18, 19, 20]) ∧
    ((reportFindAll thirtyReports none (some 10) none none []).map
        (fun p => p.rows.map Report.inputIndex) =
      Except.ok [20, 21, 22, 23, 24, 25, 26, 27, 28, 29]) ∧
    ((reportFindAll thirtyReports none (some 10) none (some (EncodeCursor 20)) []).map
        (fun p => p.rows.map Report.inputIndex) =
      Except.ok [10, 11, 12, 13, 14, 15, 16, 17, 18, 19]) := by
  refine ⟨?_, ?_, ?_, ?_⟩ <;> rfl

/-! ## Filter transforms for inputs and notices (input_repository.go inside
voucher_repository_test.go; notice_repository.go inside
input_repository_test.go) -/

/-- `transformToInputQuery`: `Index` supports `Eq`, `Gt`, `Lt` (checked in
that order), `Status` supports `Ne`, `MsgSender` supports `Eq`; other fields
are `unexpected field`; a supported field whose checked operators are all
absent is `operation not implemented`. -/
def transformToInputQuery : List ConvenienceFilter → Except String (List Cond)
  | [] => Except.ok []
  | f :: rest =>
    if f.field = "Index" then
      match f.eq with
      | some v =>
        (transformToInputQuery rest).map (fun cs => ⟨"input_index", CondOp.eq, v⟩ :: cs)
      | none =>
        match f.gt with
        | some v =>
          (transformToInputQuery rest).map (fun cs => ⟨"input_index", CondOp.gt, v⟩ :: cs)
        | none =>
          match f.lt with
          | some v =>
            (transformToInputQuery rest).map (fun cs => ⟨"input_index", CondOp.lt, v⟩ :: cs)
          | none => Except.error "operation not implemented"
    else if f.field = "Status" then
      match f.ne with
      | some v =>
        (transformToInputQuery rest).map (fun cs => ⟨"status", CondOp.ne, v⟩ :: cs)
      | none => Except.error "operation not implemented"
    else if f.field = "MsgSender" then
      match f.eq with
      | some v =>
        (transformToInputQuery rest).map (fun cs => ⟨"msg_sender", CondOp.eq, v⟩ :: cs)
      | none => Except.error "operation not implemented"
    else Except.error ("unexpected field " ++ f.field)

/-- `transformToNoticeQuery`: only `InputIndex` with `Eq` is supported. -/
def transformToNoticeQuery : List ConvenienceFilter → Except String (List Cond)
  | [] => Except.ok []
  | f :: rest =>
    if f.field = "InputIndex" then
      match f.eq with
      | some v =>
        (transformToNoticeQuery rest).map (fun cs => ⟨"input_index", CondOp.eq, v⟩ :: cs)
      | none => Except.error "operation not implemented"
    else Except.error ("unexpected field " ++ f.field)

/-- The integer value the `status` column stores (the Go enum's iota order). -/
def statusToNat : CompletionStatus → Nat
  | CompletionStatus.unprocessed => 0
  | CompletionStatus.accepted => 1
  | CompletionStatus.rejected => 2
  | CompletionStatus.exception => 3
  | CompletionStatus.machineHalted => 4
  | CompletionStatus.cycleLimitExceeded => 5
  | CompletionStatus.timeLimitExceeded => 6
  | CompletionStatus.payloadLengthLimitExceeded => 7

/-- The `msg_sender` column value (`common.Address.Hex()`; the EIP-55 mixed
casing of the real rendering is immaterial to the conjunction/error
contract being verified). -/
def addressHex (a : Address) : String := "0x" ++ bytes2Hex a

/-- SQL evaluation of one generated condition against an input row. -/
def evalInputCond (c : Cond) (r : AdvanceInput) : Bool :=
  if c.column = "msg_sender" then
    match c.op with
    | CondOp.eq => addressHex r.msgSender = c.value
    | _ => false
  else
    let col := if c.column = "status" then statusToNat r.status else r.index
    match atoiNat c.value with
    | some n =>
      match c.op with
      | CondOp.eq => col = n
      | CondOp.ne => col ≠ n
      | CondOp.gt => n < col
      | CondOp.lt => col < n
    | none => false

/-- SQL evaluation of one generated condition against a notice row. -/
def evalNoticeCond (c : Cond) (n : ConvenienceNotice) : Bool :=
  match atoiNat c.value with
  | some v =>
    match c.op with
    | CondOp.eq => n.inputIndex = v
    | CondOp.ne => n.inputIndex ≠ v
    | CondOp.gt => v < n.inputIndex
    | CondOp.lt => n.inputIndex < v
  | none => false

/-- An input row matches the WHERE clause iff it satisfies every condition. -/
def matchesInput (conds : List Cond) (r : AdvanceInput) : Bool :=
  conds.all (fun c => evalInputCond c r)

/-- A notice row matches the WHERE clause iff it satisfies every condition. -/
def matchesNotice (conds : List Cond) (n : ConvenienceNotice) : Bool :=
  conds.all (fun c => evalNoticeCond c n)

/-- `InputRepository.Count`. -/
def inputCount (tbl : List AdvanceInput) (filter : List ConvenienceFilter) :
    Except String Nat :=
  (transformToInputQuery filter).map
    (fun conds => (tbl.filter (matchesInput conds)).length)

/-- `NoticeRepository.Count`. -/
def noticeCount (tbl : List ConvenienceNotice) (filter : List ConvenienceFilter) :
    Except String Nat :=
  (transformToNoticeQuery filter).map
    (fun conds => (tbl.filter (matchesNotice conds)).length)

/-- A filter entry the input query builder accepts: a supported field with
its checked operator present. -/
def inputEntryOk (f : ConvenienceFilter) : Bool :=
  (f.field = "Index" ∧ (f.eq.isSome ∨ f.gt.isSome ∨ f.lt.isSome)) ∨
  (f.field = "Status" ∧ f.ne.isSome) ∨
  (f.field = "MsgSender" ∧ f.eq.isSome)

/-- A filter entry the report query builder accepts. -/
def reportEntryOk (f : ConvenienceFilter) : Bool :=
  (f.field = "OutputIndex" ∨ f.field = "InputIndex") ∧ f.eq.isSome

/-- A filter entry the notice query builder accepts. -/
def noticeEntryOk (f : ConvenienceFilter) : Bool :=
  f.field = "InputIndex" ∧ f.eq.isSome

lemma except_map_isOk {α β : Type} (x : Except String α) (f : α → β) :
    (x.map f).isOk = x.isOk := by
  cases x <;> rfl

lemma transformToInputQuery_isOk (fs : List ConvenienceFilter) :
    (transformToInputQuery fs).isOk = fs.all inputEntryOk := by
  induction fs with
  | nil => rfl
  | cons f rest ih =>
    by_cases h1 : f.field = "Index"
    · rcases heq : f.eq with _ | v
      · rcases hgt : f.gt with _ | v
        · rcases hlt : f.lt with _ | v
          · simp [transformToInputQuery, h1, heq, hgt, hlt, inputEntryOk, Except.isOk,
              Except.toBool]
          · simp [transformToInputQuery, h1, heq, hgt, hlt, inputEntryOk,
              except_map_isOk, ih]
        · simp [transformToInputQuery, h1, heq, hgt, inputEntryOk, except_map_isOk, ih]
      · simp [transformToInputQuery, h1, heq, inputEntryOk, except_map_isOk, ih]
    · by_cases h2 : f.field = "Status"
      · rcases hne : f.ne with _ | v
        · simp [transformToInputQuery, h1, h2, hne, inputEntryOk, Except.isOk,
            Except.toBool]
        · simp [transformToInputQuery, h1, h2, hne, inputEntryOk, except_map_isOk, ih]
      · by_cases h3 : f.field = "MsgSender"
        · rcases heq : f.eq with _ | v
          · simp [transformToInputQuery, h1, h2, h3, heq, inputEntryOk, Except.isOk,
              Except.toBool]
          · simp [transformToInputQuery, h1, h2, h3, heq, inputEntryOk,
              except_map_isOk, ih]
        · simp [transformToInputQuery, h1, h2, h3, inputEntryOk, Except.isOk,
            Except.toBool]

lemma transformToReportQuery_isOk (fs : List ConvenienceFilter) :
    (transformToReportQuery fs).isOk = fs.all reportEntryOk := by
  induction fs with
  | nil => rfl
  | cons f rest ih =>
    by_cases h1 : f.field = "OutputIndex"
    · rcases heq : f.eq with _ | v
      · simp [transformToReportQuery, h1, heq, reportEntryOk, Except.isOk, Except.toBool]
      · simp [transformToReportQuery, h1, heq, reportEntryOk, except_map_isOk, ih]
    · by_cases h2 : f.field = "InputIndex"
      · rcases heq : f.eq with _ | v
        · simp [transformToReportQuery, h1, h2, heq, reportEntryOk, Except.isOk,
            Except.toBool]
        · simp [transformToReportQuery, h1, h2, heq, reportEntryOk, except_map_isOk, ih]
      · simp [transformToReportQuery, h1, h2, reportEntryOk, Except.isOk, Except.toBool]

lemma transformToNoticeQuery_isOk (fs : List ConvenienceFilter) :
    (transformToNoticeQuery fs).isOk = fs.all noticeEntryOk := by
  induction fs with
  | nil => rfl
  | cons f rest ih =>
    by_cases h1 : f.field = "InputIndex"
    · rcases heq : f.eq with _ | v
      · simp [transformToNoticeQuery, h1, heq, noticeEntryOk, Except.isOk, Except.toBool]
      · simp [transformToNoticeQuery, h1, heq, noticeEntryOk, except_map_isOk, ih]
    · simp [transformToNoticeQuery, h1, noticeEntryOk, Except.isOk, Except.toBool]

/-- **C7 counterexample** — a single filter entry on field `Status` with both
`Ne` and `Eq` set: `Eq` is not implemented for `Status`, yet the transform
succeeds, producing only the `Ne` condition — the `Eq` predicate is silently
dropped instead of causing an error, contradicting the claim. -/
theorem transformToInputQuery_drops_extra_operator :
    transformToInputQuery [⟨"Status", some "0", some "1", none, none⟩] =
      Except.ok [⟨"status", CondOp.ne, "1"⟩] ∧
    (⟨"Status", some "0", some "1", none, none⟩ : ConvenienceFilter).eq = some "0" := by
  exact ⟨rfl, rfl⟩

/-- **C7 amended** — per-field predicates are combined as a conjunction (a
row matches iff it satisfies every generated condition), and the query
builders succeed exactly when every entry names a supported field with the
operator checked for that field present (`Index`: `Eq`/`Gt`/`Lt`; `Status`:
`Ne`; `MsgSender`: `Eq`; report `OutputIndex`/`InputIndex`: `Eq`; notice
`InputIndex`: `Eq`) — an unsupported field or an entry with none of its
checked operators set makes `Count`/`FindAll` return an error.  Deviation
from the original claim: an entry with several operators set contributes
only the first implemented one in the fixed checking order; the others are
silently ignored. -/
theorem filter_conjunction_and_unsupported_errors :
    (∀ conds r, matchesInput conds r = true ↔ ∀ c ∈ conds, evalInputCond c r = true) ∧
    (∀ conds n, matchesNotice conds n = true ↔ ∀ c ∈ conds, evalNoticeCond c n = true) ∧
    (∀ conds r, matchesReport conds r = true ↔ ∀ c ∈ conds, evalReportCond c r = true) ∧
    (∀ tbl fs, (inputCount tbl fs).isOk = fs.all inputEntryOk) ∧
    (∀ tbl fs, (reportCount tbl fs).isOk = fs.all reportEntryOk) ∧
    (∀ tbl fs, (noticeCount tbl fs).isOk = fs.all noticeEntryOk) := by
  refine ⟨?_, ?_, ?_, ?_, ?_, ?_⟩
  · intro conds r
    simp [matchesInput, List.all_eq_true]
  · intro conds n
    simp [matchesNotice, List.all_eq_true]
  · intro conds r
    simp [matchesReport, List.all_eq_true]
  · intro tbl fs
    rw [inputCount, except_map_isOk, transformToInputQuery_isOk]
  · intro tbl fs
    rw [reportCount, except_map_isOk, transformToReportQuery_isOk]
  · intro tbl fs
    rw [noticeCount, except_map_isOk, transformToNoticeQuery_isOk]

/-! ## Voucher exec listener (VoucherExecListener.OnEvent) -/

/-- The listener's voucher-index decoding:
`new(big.Int).Rsh(voucherId, 128)`. -/
def execListenerVoucherIndex (id : Nat) : Nat := id >>> 128

/-- The listener's input-index decoding:
`new(big.Int).And(voucherId, bitMask)` with
`bitMask = 0xFFFFFFFFFFFFFFFF` — a **64-bit** mask. -/
def execListenerInputIndex (id : Nat) : Nat := id &&& 0xFFFFFFFFFFFFFFFF

/-- The claim's stated decoding of the input index: the low **128** bits of
the packed id (stated for comparison with the code's
`execListenerInputIndex`). -/
def specLow128InputIndex (id : Nat) : Nat := id % 2 ^ 128

/-- `VoucherExecListener.OnEvent`: demand exactly one event value, split the
id, and flip the voucher's `Executed` flag through
`ConvenienceService.UpdateExecuted(input.Uint64(), voucher.Uint64(), true)`
(`big.Int.Uint64` keeps the low 64 bits). -/
def OnEvent (eventValues : List Nat) ( _timestamp _blockNumber : Nat)
    (vtbl : List ConvenienceVoucher) : Except String (List ConvenienceVoucher) :=
  match eventValues with
  | [voucherId] =>
    let voucher := execListenerVoucherIndex voucherId
    let input := execListenerInputIndex voucherId
    Except.ok (voucherRepoUpdateExecuted vtbl (input % 2 ^ 64) (voucher % 2 ^ 64) true)
  | _ => Except.error "wrong event values length != 1"

lemma land_two_pow_64_mask : (2 ^ 64 : Nat) &&& 0xFFFFFFFFFFFFFFFF = 0 := by
  have hmask : (0xFFFFFFFFFFFFFFFF : Nat) = 2 ^ 64 - 1 := by norm_num
  rw [hmask]
  apply Nat.eq_of_testBit_eq
  intro i
  rw [Nat.testBit_and, Nat.testBit_two_pow, Nat.testBit_two_pow_sub_one]
  rcases eq_or_ne i 64 with rfl | hne
  · simp
  · simp [Ne.symm hne]

/-- **C8 counterexample** — at the packed id `2 ^ 64` the code's input index
(64-bit mask) is `0`, while the claim's "low 128 bits" reading gives
`2 ^ 64`; the two decodings disagree. -/
theorem execListener_inputIndex_not_low_128_bits :
    execListenerInputIndex (2 ^ 64) = 0 ∧
      specLow128InputIndex (2 ^ 64) = 2 ^ 64 ∧
      (0 : Nat) ≠ 2 ^ 64 := by
  refine ⟨land_two_pow_64_mask, Nat.mod_eq_of_lt (by norm_num), by positivity⟩

lemma voucherRowsAt_updateExecuted (tbl : List ConvenienceVoucher) (i o : Nat)
    (b : Bool) :
    voucherRowsAt (voucherRepoUpdateExecuted tbl i o b) i o =
      (voucherRowsAt tbl i o).map (fun r => { r with executed := b }) := by
  induction tbl with
  | nil => rfl
  | cons r t ih =>
    by_cases h : r.inputIndex = i ∧ r.outputIndex = o
    · simp [voucherRepoUpdateExecuted, voucherRowsAt, h] at ih ⊢
      exact ih
    · simp [voucherRepoUpdateExecuted, voucherRowsAt, h] at ih ⊢
      exact ih

lemma updateExecuted_preserves_fields (tbl : List ConvenienceVoucher) (i o : Nat)
    (b : Bool) :
    (voucherRepoUpdateExecuted tbl i o b).map
        (fun r => (r.destination, r.payload, r.inputIndex, r.outputIndex, r.appContract)) =
      tbl.map (fun r => (r.destination, r.payload, r.inputIndex, r.outputIndex, r.appContract)) := by
  induction tbl with
  | nil => rfl
  | cons r t ih =>
    by_cases h : r.inputIndex = i ∧ r.outputIndex = o
    · simp [voucherRepoUpdateExecuted, h] at ih ⊢
      exact ih
    · simp [voucherRepoUpdateExecuted, h] at ih ⊢
      exact ih

/-- **C8 amended** — for every packed 256-bit id in an `OutputExecuted`
event, `OnEvent` computes the voucher index as the id shifted right by 128
bits and the input index as the id masked with `0xFFFFFFFFFFFFFFFF` (the low
**64** bits, not 128), both truncated to `uint64`, and flips exactly the
`Executed` flag of the voucher rows at
`(inputIndex, outputIndex) = (input, voucher)`, leaving every other field of
every row unchanged. -/
theorem onEvent_masks_and_flips_executed (id : Nat) (vtbl : List ConvenienceVoucher) :
    ∃ vtbl1,
      OnEvent [id] 0 0 vtbl = Except.ok vtbl1 ∧
      vtbl1 = voucherRepoUpdateExecuted vtbl
        (execListenerInputIndex id % 2 ^ 64)
        (execListenerVoucherIndex id % 2 ^ 64) true ∧
      (∀ r ∈ voucherRowsAt vtbl1
          (execListenerInputIndex id % 2 ^ 64)
          (execListenerVoucherIndex id % 2 ^ 64), r.executed = true) ∧
      vtbl1.map
          (fun r => (r.destination, r.payload, r.inputIndex, r.outputIndex, r.appContract)) =
        vtbl.map
          (fun r => (r.destination, r.payload, r.inputIndex, r.outputIndex, r.appContract)) := by
  refine ⟨voucherRepoUpdateExecuted vtbl
      (execListenerInputIndex id % 2 ^ 64)
      (execListenerVoucherIndex id % 2 ^ 64) true,
    rfl, rfl, ?_, updateExecuted_preserves_fields vtbl _ _ true⟩
  intro r hr
  rw [voucherRowsAt_updateExecuted] at hr
  obtain ⟨r0, _, rfl⟩ := List.mem_map.mp hr
  rfl

/-- Witness for `onEvent_masks_and_flips_executed` at the packed id
`(3 <<< 128) + 2` over a one-row table. -/
theorem onEvent_masks_and_flips_executed_witness :
    ∃ vtbl1 : List ConvenienceVoucher,
      OnEvent [(3 <<< 128) + 2] 0 0
          [⟨zeroAddress, "0x11", 2, 3, false, zeroAddress⟩] = Except.ok vtbl1 ∧
      vtbl1 = voucherRepoUpdateExecuted
        [⟨zeroAddress, "0x11", 2, 3, false, zeroAddress⟩]
        (execListenerInputIndex ((3 <<< 128) + 2) % 2 ^ 64)
        (execListenerVoucherIndex ((3 <<< 128) + 2) % 2 ^ 64) true ∧
      (∀ r ∈ voucherRowsAt vtbl1
          (execListenerInputIndex ((3 <<< 128) + 2) % 2 ^ 64)
          (execListenerVoucherIndex ((3 <<< 128) + 2) % 2 ^ 64), r.executed = true) ∧
      vtbl1.map
          (fun r => (r.destination, r.payload, r.inputIndex, r.outputIndex, r.appContract)) =
        ([⟨zeroAddress, "0x11", 2, 3, false, zeroAddress⟩] : List ConvenienceVoucher).map
          (fun r => (r.destination, r.payload, r.inputIndex, r.outputIndex, r.appContract)) :=
  onEvent_masks_and_flips_executed ((3 <<< 128) + 2)
    [⟨zeroAddress, "0x11", 2, 3, false, zeroAddress⟩]

/-- Witness for `filter_conjunction_and_unsupported_errors`: an unknown field
makes `Count` fail, and a concrete conjunction evaluates as the and of its
conditions. -/
theorem filter_conjunction_and_unsupported_errors_witness :
    (inputCount ([] : List AdvanceInput)
        [⟨"Banana", some "1", none, none, none⟩]).isOk =
      [(⟨"Banana", some "1", none, none, none⟩ : ConvenienceFilter)].all inputEntryOk :=
  filter_conjunction_and_unsupported_errors.2.2.2.1 []
    [⟨"Banana", some "1", none, none, none⟩]

/-! ## Rollup state machine (internal/model/model.go; the `rollupsState`
implementations are not under the sources in scope and are modelled from the
spec) -/

/-- Modelled from the spec: `model.InspectInput` — a transient, in-memory
read-only query (the `model` package's type declaration is not under the
sources in scope). -/
structure InspectInput where
  index : Nat
  status : CompletionStatus
  payload : List Nat
  deriving Repr, DecidableEq

/-- Modelled from the spec: the `rollupsState` variants `rollupsStateIdle`,
`rollupsStateAdvance(input)`, `rollupsStateInspect(input)`. -/
inductive RollupsState where
  | idle
  | advance (input : AdvanceInput)
  | inspect (input : InspectInput)
  deriving Repr, DecidableEq

/-- The `NonodoModel` state the claims touch: the in-memory inspect queue,
the `convenience_inputs` table behind `inputRepository`, the voucher store
behind the Convenience Service, and the current `rollupsState`. -/
structure NModel where
  inspects : List InspectInput
  inputs : List AdvanceInput
  vouchers : List ConvenienceVoucher
  state : RollupsState
  deriving Repr, DecidableEq

/-- `InputRepository.Update`:
`UPDATE convenience_inputs SET status = $1, exception = $2 WHERE input_index = $3`. -/
def inputRepoUpdate (tbl : List AdvanceInput) (input : AdvanceInput) :
    List AdvanceInput :=
  tbl.map (fun r =>
    if r.index = input.index then
      { r with status := input.status, exception := input.exception }
    else r)

/-- Order on input rows by `input_index` (`ORDER BY input_index ASC`). -/
def inputIdxLE (a b : AdvanceInput) : Prop := a.index ≤ b.index

instance : DecidableRel inputIdxLE := fun a b => Nat.decLe a.index b.index

instance : IsTotal AdvanceInput inputIdxLE := ⟨fun a b => Nat.le_total a.index b.index⟩

instance : IsTrans AdvanceInput inputIdxLE := ⟨fun _ _ _ hab hbc => Nat.le_trans hab hbc⟩

/-- `InputRepository.FindByStatus`:
`SELECT ... WHERE status = $1 ORDER BY input_index ASC`, first row. -/
def inputRepoFindByStatus (tbl : List AdvanceInput) (status : CompletionStatus) :
    Option AdvanceInput :=
  (List.insertionSort inputIdxLE tbl).find? (fun r => r.status = status)

/-- Modelled from the spec: `rollupsState.finish(status)` — a no-op while
`Idle`; persists the terminal status to the input record on `Advance`;
updates only the in-memory inspect record on `Inspect`. -/
def finishState (m : NModel) (status : CompletionStatus) : NModel :=
  match m.state with
  | RollupsState.idle => m
  | RollupsState.advance i =>
    { m with inputs := inputRepoUpdate m.inputs { i with status := status } }
  | RollupsState.inspect i =>
    { m with inspects := m.inspects.map (fun x =>
        if x.index = i.index then { x with status := status } else x) }

/-- `NonodoModel.FinishAndGetNext` (model.go): finish the current input with
Accepted/Rejected, then make current and return the first Unprocessed inspect
input; else the Unprocessed advance input first by ascending index; else go
`Idle` and return nothing. -/
def FinishAndGetNext (m : NModel) (accepted : Bool) :
    NModel × Option (InspectInput ⊕ AdvanceInput) :=
  let status := if accepted then CompletionStatus.accepted
                else CompletionStatus.rejected
  let m1 := finishState m status
  match m1.inspects.find? (fun i => i.status = CompletionStatus.unprocessed) with
  | some input => ({ m1 with state := RollupsState.inspect input }, some (Sum.inl input))
  | none =>
    match inputRepoFindByStatus m1.inputs CompletionStatus.unprocessed with
    | some input =>
      ({ m1 with state := RollupsState.advance input }, some (Sum.inr input))
    | none => ({ m1 with state := RollupsState.idle }, none)

/-- Modelled from the spec: `rollupsStateIdle.addVoucher` /
`rollupsStateInspect.addVoucher` fail with an `InvalidStateError`; while in
`Advance` the voucher gets the next sequential output index scoped to the
current input and is persisted through the Convenience Service
(`NonodoModel.AddVoucher` delegates to `m.state.addVoucher` under the
mutex). -/
def AddVoucher (m : NModel) (destination : Address) (payload : List Nat) :
    NModel × Except String Nat :=
  match m.state with
  | RollupsState.idle => (m, Except.error "cannot add voucher in idle state")
  | RollupsState.inspect _ => (m, Except.error "cannot add voucher in inspect state")
  | RollupsState.advance i =>
    let idx := (m.vouchers.filter (fun v => v.inputIndex = i.index)).length
    let cVoucher : ConvenienceVoucher :=
      { destination := destination, payload := "0x" ++ bytes2Hex payload,
        inputIndex := i.index, outputIndex := idx, executed := false,
        appContract := i.appContract }
    ({ m with vouchers := (createVoucher m.vouchers cVoucher).1 }, Except.ok idx)

/-- **C9** — `AddVoucher` called while the machine is `Idle` returns an error
and persists nothing: the model (in particular the voucher store and its
count) is unchanged. -/
theorem addVoucher_idle_errors (m : NModel) (destination : Address)
    (payload : List Nat) (h : m.state = RollupsState.idle) :
    (∃ e, (AddVoucher m destination payload).2 = Except.error e) ∧
      (AddVoucher m destination payload).1 = m ∧
      (AddVoucher m destination payload).1.vouchers.length = m.vouchers.length := by
  refine ⟨⟨"cannot add voucher in idle state", ?_⟩, ?_, ?_⟩ <;>
    simp [AddVoucher, h]

/-- Witness for `addVoucher_idle_errors` on a concrete idle model. -/
theorem addVoucher_idle_errors_witness :
    (∃ e, (AddVoucher ⟨[], [], [], RollupsState.idle⟩ zeroAddress [0x11]).2 =
        Except.error e) ∧
      (AddVoucher ⟨[], [], [], RollupsState.idle⟩ zeroAddress [0x11]).1 =
        ⟨[], [], [], RollupsState.idle⟩ ∧
      (AddVoucher ⟨[], [], [], RollupsState.idle⟩ zeroAddress [0x11]).1.vouchers.length =
        (⟨[], [], [], RollupsState.idle⟩ : NModel).vouchers.length :=
  addVoucher_idle_errors ⟨[], [], [], RollupsState.idle⟩ zeroAddress [0x11] rfl

/-- **C6** — `FinishAndGetNext` selection order, examined on the model after
the internal finish step `m1`: when an Unprocessed inspect input exists it
returns (and makes current) the first one in the queue, even if Unprocessed
advance inputs also exist; when none exists it returns the Unprocessed
advance input with the smallest index; when neither exists it returns
nothing and the machine is Idle. -/
theorem finishAndGetNext_selects (m : NModel) (accepted : Bool) :
    ((∃ i ∈ (finishState m (if accepted then CompletionStatus.accepted
        else CompletionStatus.rejected)).inspects,
        i.status = CompletionStatus.unprocessed) →
      ∃ i pre post,
        (FinishAndGetNext m accepted).2 = some (Sum.inl i) ∧
        (FinishAndGetNext m accepted).1.state = RollupsState.inspect i ∧
        i.status = CompletionStatus.unprocessed ∧
        (finishState m (if accepted then CompletionStatus.accepted
          else CompletionStatus.rejected)).inspects = pre ++ i :: post ∧
        (∀ j ∈ pre, j.status ≠ CompletionStatus.unprocessed)) ∧
    ((∀ i ∈ (finishState m (if accepted then CompletionStatus.accepted
        else CompletionStatus.rejected)).inspects,
        i.status ≠ CompletionStatus.unprocessed) →
      (∃ a ∈ (finishState m (if accepted then CompletionStatus.accepted
        else CompletionStatus.rejected)).inputs,
        a.status = CompletionStatus.unprocessed) →
      ∃ a,
        (FinishAndGetNext m accepted).2 = some (Sum.inr a) ∧
        (FinishAndGetNext m accepted).1.state = RollupsState.advance a ∧
        a.status = CompletionStatus.unprocessed ∧
        a ∈ (finishState m (if accepted then CompletionStatus.accepted
          else CompletionStatus.rejected)).inputs ∧
        (∀ b ∈ (finishState m (if accepted then CompletionStatus.accepted
          else CompletionStatus.rejected)).inputs,
          b.status = CompletionStatus.unprocessed → a.index ≤ b.index)) ∧
    ((∀ i ∈ (finishState m (if accepted then CompletionStatus.accepted
        else CompletionStatus.rejected)).inspects,
        i.status ≠ CompletionStatus.unprocessed) →
      (∀ a ∈ (finishState m (if accepted then CompletionStatus.accepted
        else CompletionStatus.rejected)).inputs,
        a.status ≠ CompletionStatus.unprocessed) →
      (FinishAndGetNext m accepted).2 = none ∧
        (FinishAndGetNext m accepted).1.state = RollupsState.idle) := by
  set status := if accepted then CompletionStatus.accepted
    else CompletionStatus.rejected with hstatus
  set m1 := finishState m status with hm1
  refine ⟨?_, ?_, ?_⟩
  · rintro ⟨i0, hi0mem, hi0st⟩
    have hsome : (m1.inspects.find?
        (fun i => i.status = CompletionStatus.unprocessed)).isSome :=
      List.find?_isSome.mpr ⟨i0, hi0mem, by simp [hi0st]⟩
    obtain ⟨i, hfind⟩ := Option.isSome_iff_exists.mp hsome
    obtain ⟨hpi, pre, post, hdecomp, hpre⟩ := List.find?_eq_some.mp hfind
    refine ⟨i, pre, post, ?_, ?_, by simpa using hpi, hdecomp, ?_⟩
    · simp only [FinishAndGetNext, ← hstatus, ← hm1, hfind]
    · simp only [FinishAndGetNext, ← hstatus, ← hm1, hfind]
    · intro j hj
      have := hpre j hj
      simpa using this
  · intro hnoinspect hex
    have hfindnone : m1.inspects.find?
        (fun i => i.status = CompletionStatus.unprocessed) = none :=
      List.find?_eq_none.mpr (fun x hx => by simpa using hnoinspect x hx)
    obtain ⟨a0, ha0mem, ha0st⟩ := hex
    have hperm : List.Perm (List.insertionSort inputIdxLE m1.inputs) m1.inputs :=
      List.perm_insertionSort inputIdxLE m1.inputs
    have hsome : ((List.insertionSort inputIdxLE m1.inputs).find?
        (fun r => r.status = CompletionStatus.unprocessed)).isSome :=
      List.find?_isSome.mpr ⟨a0, hperm.mem_iff.mpr ha0mem, by simp [ha0st]⟩
    obtain ⟨a, hfind⟩ := Option.isSome_iff_exists.mp hsome
    obtain ⟨hpa, pre, post, hdecomp, hpre⟩ := List.find?_eq_some.mp hfind
    have hfindsome : inputRepoFindByStatus m1.inputs CompletionStatus.unprocessed =
        some a := hfind
    have hsorted : (List.insertionSort inputIdxLE m1.inputs).Pairwise inputIdxLE :=
      List.sorted_insertionSort inputIdxLE m1.inputs
    refine ⟨a, ?_, ?_, by simpa using hpa, ?_, ?_⟩
    · simp only [FinishAndGetNext, ← hstatus, ← hm1, hfindnone, hfindsome]
    · simp only [FinishAndGetNext, ← hstatus, ← hm1, hfindnone, hfindsome]
    · exact hperm.mem_iff.mp (List.mem_of_find?_eq_some hfind)
    · intro b hbmem hbst
      have hbsort : b ∈ List.insertionSort inputIdxLE m1.inputs :=
        hperm.mem_iff.mpr hbmem
      rw [hdecomp] at hbsort hsorted
      rcases List.mem_append.mp hbsort with hbpre | hbrest
      · exact absurd (by simpa [hbst] using hpre b hbpre) (fun hfalse => hfalse)
      · rcases List.mem_cons.mp hbrest with rfl | hbpost
        · exact Nat.le_refl _
        · have hpw := (List.pairwise_append.mp hsorted).2.1
          exact (List.pairwise_cons.mp hpw).1 b hbpost
  · intro hnoinspect hnoadvance
    have hfindnone : m1.inspects.find?
        (fun i => i.status = CompletionStatus.unprocessed) = none :=
      List.find?_eq_none.mpr (fun x hx => by simpa using hnoinspect x hx)
    have hperm : List.Perm (List.insertionSort inputIdxLE m1.inputs) m1.inputs :=
      List.perm_insertionSort inputIdxLE m1.inputs
    have hfindnone2 : inputRepoFindByStatus m1.inputs CompletionStatus.unprocessed =
        none :=
      List.find?_eq_none.mpr
        (fun x hx => by simpa using hnoadvance x (hperm.mem_iff.mp hx))
    constructor
    · simp only [FinishAndGetNext, ← hstatus, ← hm1, hfindnone, hfindnone2]
    · simp only [FinishAndGetNext, ← hstatus, ← hm1, hfindnone, hfindnone2]

/-- A model holding one Unprocessed inspect input and one Unprocessed
advance input at the same time, machine Idle. -/
def modelWithPendingInspectAndAdvance : NModel :=
  { inspects := [⟨0, CompletionStatus.unprocessed, [0x11]⟩],
    inputs := [{ index := 5, status := CompletionStatus.unprocessed,
                 msgSender := zeroAddress, payload := [], blockNumber := 0,
                 blockTimestamp := 0, prevRandao := "", exception := [],
                 appContract := zeroAddress }],
    vouchers := [],
    state := RollupsState.idle }

/-- Witness for `finishAndGetNext_selects`: with both an Unprocessed inspect
and an Unprocessed advance input pending, the inspect input is returned. -/
theorem finishAndGetNext_selects_witness :
    ∃ i pre post,
      (FinishAndGetNext modelWithPendingInspectAndAdvance true).2 =
          some (Sum.inl i) ∧
        (FinishAndGetNext modelWithPendingInspectAndAdvance true).1.state =
          RollupsState.inspect i ∧
        i.status = CompletionStatus.unprocessed ∧
        (finishState modelWithPendingInspectAndAdvance
          (if true then CompletionStatus.accepted
            else CompletionStatus.rejected)).inspects = pre ++ i :: post ∧
        (∀ j ∈ pre, j.status ≠ CompletionStatus.unprocessed) :=
  (finishAndGetNext_selects modelWithPendingInspectAndAdvance true).1
    ⟨⟨0, CompletionStatus.unprocessed, [0x11]⟩, by decide, by decide⟩

end CartesiHlGraphql
